import Mathlib

/-!
Verification of the serial frame codec, serial bridge workers, outbound
queue, link-session state handling and command router of `lora_chat.py`
(RadioGram). Python code is shallowly embedded: byte strings become
`List Nat` (each element a byte value), threads and blocking reads become
explicit iteration oracles plus fuel, and the mutable `ChatNode` fields
`link` / `peer_hash` become a `NodeState` record threaded through the
handlers.
-/

namespace LoraChat

/-- Frame size limit used by both workers (`60000` in the source). -/
def FRAME_MAX : Nat := 60000

/-- Outbound queue capacity: `queue.Queue(maxsize=100)`. -/
def QUEUE_CAP : Nat := 100

/-- The 4 ASCII bytes of the outbound tag `b"JCTL"`. -/
def tagJCTL : List Nat := [74, 67, 84, 76]

/-- The 4 ASCII bytes of the outbound tag `b"TXTP"`. -/
def tagTXTP : List Nat := [84, 88, 84, 80]

/-- The 4 ASCII bytes of the inbound tag `b"EVNT"`. -/
def tagEVNT : List Nat := [69, 86, 78, 84]

/-- The 4 ASCII bytes of the inbound tag `b"TXIN"`. -/
def tagTXIN : List Nat := [84, 88, 73, 78]

/-- `struct.pack("<H", n)`: the two little-endian bytes of a u16. -/
def u16le (n : Nat) : List Nat := [n % 256, n / 256 % 256]

/-- Codec-level frame encoding, the shape written by `_tx_worker`
(line 134): `header + struct.pack("<H", len(data)) + data`. -/
def encodeFrame (tag payload : List Nat) : List Nat :=
  tag ++ u16le payload.length ++ payload

/-- `_tx_worker` frame construction (lines 128-134): header selection
(`"JCTL"` if the queued kind is JCTL, otherwise `"TXTP"`), then
`data = msg.encode("utf-8")[:60000]` (truncation, not failure), then
`header + struct.pack("<H", len(data)) + data`.  `msg` is modelled as its
UTF-8 byte list. -/
def txFrame (frameType msg : List Nat) : List Nat :=
  let header := if frameType = tagJCTL then tagJCTL else tagTXTP
  let data := msg.take FRAME_MAX
  header ++ u16le data.length ++ data

/-- One parse attempt of `_rx_worker` (lines 158-175) on a buffered byte
list: read 4 header bytes, require the header to be `EVNT` or `TXIN`,
read the 2-byte little-endian length `L = ln[0] | (ln[1] << 8)`, reject
`L == 0 or L > 60000`, read `L` payload bytes.  Returns
`(tag, payload, unconsumed rest)` on success and `none` on every
rejecting branch (short read, unknown tag, bad length, short payload). -/
def decodeFrame : List Nat → Option (List Nat × List Nat × List Nat)
  | t0 :: t1 :: t2 :: t3 :: l0 :: l1 :: rest =>
    let hdr := [t0, t1, t2, t3]
    if hdr = tagEVNT ∨ hdr = tagTXIN then
      let L := l0 ||| (l1 <<< 8)
      if L = 0 ∨ L > FRAME_MAX then none
      else if rest.length < L then none
      else some (hdr, rest.take L, rest.drop L)
    else none
  | _ => none

/-- One iteration of the `_rx_worker` loop over the currently buffered
bytes, with no further bytes arriving during the iteration.  On a
successful parse the payload is emitted and the unconsumed bytes stay
buffered.  Every rejecting branch of the source loop leaves the buffer
empty: an unknown tag and a bad length call `ser.reset_input_buffer()`
(lines 163, 171), and a short read is consumed by `_read_exact` before
it times out and returns `None` (lines 105-114), so the partial bytes
are dropped with it. -/
def rxStep (buf : List Nat) : Option (List Nat) × List Nat :=
  match decodeFrame buf with
  | some (_, payload, rest) => (some payload, rest)
  | none => (none, [])

/-- Run `rxStep` repeatedly on a buffered byte list until the buffer is
drained (or the fuel runs out), collecting the emitted frame payloads in
order. -/
def rxDrain : Nat → List Nat → List (List Nat)
  | 0, _ => []
  | _ + 1, [] => []
  | fuel + 1, buf =>
    match rxStep buf with
    | (some p, rest) => p :: rxDrain fuel rest
    | (none, rest) => rxDrain fuel rest

/-- `InkplateBridge._read_exact(ser, n, to)` (lines 105-114).  The serial
port and the clock are oracles indexed by the loop iteration: `reads i k`
is what `ser.read(k)` returns at iteration `i` (the contract of the
serial library is that it returns at most `k` bytes), `stop i` is the
value of `self._stop` read at iteration `i`, and `timedOut i` is the
boolean `time.time() - t0 > to` at iteration `i`.  `fuel` bounds the
number of iterations; `none` means the fuel ran out, `some none` is the
`return None` timeout branch, `some (some buf)` is `return bytes(buf)`. -/
def readExactAux (reads : Nat → Nat → List Nat) (stop timedOut : Nat → Bool)
    (n : Nat) : Nat → Nat → List Nat → Option (Option (List Nat))
  | 0, _, _ => none
  | fuel + 1, i, buf =>
    if buf.length < n ∧ stop i = false then
      let b := reads i (n - buf.length)
      if b ≠ [] then readExactAux reads stop timedOut n fuel (i + 1) (buf ++ b)
      else if timedOut i = true then some none
      else readExactAux reads stop timedOut n fuel (i + 1) buf
    else some (some buf)

/-- `Link.status` values used by `send_text` (`RNS.Link.ACTIVE` etc.). -/
inductive LinkStatus
  | pending
  | active
  | closed
deriving DecidableEq

/-- An `RNS.Link` object, identified by `id` so that distinct link
objects can be told apart, with its `status` attribute. -/
structure Link where
  id : Nat
  status : LinkStatus
deriving DecidableEq

/-- The mutable per-session fields of `ChatNode`: `self.link`
(line 228) and `self.peer_hash` (line 229). -/
structure NodeState where
  link : Option Link
  peerHash : Option (List Nat)
deriving DecidableEq

/-- Status messages emitted through `_print_status`, abstracted to
tokens; each constructor names one literal format string of the
source. -/
inductive Msg
  /-- "[!] Link is not active." (line 302) -/
  | linkNotActive
  /-- "[!] Link packet send failed: {e}" (line 309) -/
  | sendFailed
  /-- "[Me] {text}" (line 314), carrying the echoed bytes -/
  | echoSent (data : List Nat)
  /-- "[!] Invalid Peer Hash" (line 279) -/
  | invalidPeerHash
  /-- "Could not obtain path/identity for peer. ..." (lines 268-269,
  printed at line 285) -/
  | peerUnreachable
  /-- "[i] Connecting to {peer_hex}..." (line 295) -/
  | connectingTo
  /-- "[✓] Incoming Link Established" (line 325) -/
  | incomingEstablished
  /-- "[i] Link Closed" (line 364) -/
  | linkClosedMsg
deriving DecidableEq

/-- `ChatNode._on_incoming_link_established` (lines 318-325): registers
callbacks on the event link (no state effect) and then executes
`self.link = link`, unconditionally. -/
def onIncomingLinkEstablished (st : NodeState) (l : Link) :
    NodeState × List Msg :=
  ({ st with link := some l }, [Msg.incomingEstablished])

/-- `ChatNode._on_link_closed` (lines 362-364): `self.link = None`,
unconditionally — the event link is not compared with the current
link. -/
def onLinkClosed (st : NodeState) (_l : Link) : NodeState × List Msg :=
  ({ st with link := none }, [Msg.linkClosedMsg])

/-- `ChatNode.send_text` (lines 297-314).  `data` is
`text.encode("utf-8", errors="replace")` as a byte list; `sendFails`
says whether `RNS.Packet(self.link, data); pkt.send()` raises.  Returns
the new state, the list of payloads handed to the mesh send call (one
attempt), and the printed messages. -/
def sendText (st : NodeState) (data : List Nat) (sendFails : Bool) :
    NodeState × List (List Nat) × List Msg :=
  match st.link with
  | none => (st, [], [Msg.linkNotActive])
  | some l =>
    if l.status ≠ LinkStatus.active then (st, [], [Msg.linkNotActive])
    else if sendFails then
      ({ st with link := none }, [data], [Msg.sendFailed])
    else (st, [data], [Msg.echoSent data])

/-- `ChatNode._wait_for_path_and_identity` (lines 256-263).  Oracles per
poll iteration: `hasPath i` is `RNS.Transport.has_path(peer_hash)`,
`recall i` is `RNS.Identity.recall(peer_hash)` (identities as `Nat`),
and `timedOut i` is `time.time() - t0 > PATH_WAIT_TIMEOUT`.
`request_path` and `time.sleep(PATH_WAIT_STEP)` are effect-only.
`none` means the fuel ran out; `some none` is the `return None` timeout
branch; `some (some ident)` is the recalled identity. -/
def waitForPathAndIdentityAux (hasPath : Nat → Bool)
    (recallId : Nat → Option Nat) (timedOut : Nat → Bool) :
    Nat → Nat → Option (Option Nat)
  | 0, _ => none
  | fuel + 1, i =>
    if hasPath i = false ∨ recallId i = none then
      if timedOut i = true then some none
      else waitForPathAndIdentityAux hasPath recallId timedOut fuel (i + 1)
    else some (recallId i)

/-- `ChatNode.connect` (lines 274-295).  `parsed` is the result of
`bytes.fromhex(peer_hex)` (`none` when it raises `ValueError`, in which
case `self.peer_hash` is left unchanged).  On a successful parse
`self.peer_hash` is assigned BEFORE resolution; then
`_out_dest_for_peer` runs `_wait_for_path_and_identity` and raises
`RuntimeError` (caught, message printed, return) when it yields `None`;
otherwise `self.link = RNS.Link(out_dest)` creates `newLink`.  The outer
`none` means the resolution fuel ran out. -/
def connect (st : NodeState) (parsed : Option (List Nat))
    (hasPath : Nat → Bool) (recallId : Nat → Option Nat)
    (timedOut : Nat → Bool) (fuel : Nat) (newLink : Link) :
    Option (NodeState × List Msg) :=
  match parsed with
  | none => some (st, [Msg.invalidPeerHash])
  | some ph =>
    let st1 := { st with peerHash := some ph }
    match waitForPathAndIdentityAux hasPath recallId timedOut fuel 0 with
    | none => none
    | some none => some (st1, [Msg.peerUnreachable])
    | some (some _) => some ({ st1 with link := some newLink }, [Msg.connectingTo])

/-- The enqueue used by `send_txtp` (lines 70-77) and `send_json`
(lines 58-66): `put_nowait`, and on `queue.Full` a `get_nowait` of the
oldest item followed by `put_nowait` of the new one.  The queue is
`queue.Queue(maxsize=100)` (line 45), modelled FIFO as a list with the
oldest item first. -/
def putDropOldest {α : Type} (q : List α) (x : α) : List α :=
  if q.length < QUEUE_CAP then q ++ [x] else q.drop 1 ++ [x]

/-- Enqueue a whole list of items, starting from an empty queue; the
resulting list is what `_tx_worker` would then dequeue, in FIFO
order. -/
def enqueueAll {α : Type} (items : List α) : List α :=
  items.foldl putDropOldest []

/-- `str.strip()` whitespace test, for the ASCII whitespace characters
(space, tab, newline, carriage return, vertical tab, form feed). -/
def isWs (c : Char) : Bool :=
  c = ' ' || c = '\t' || c = '\n' || c = '\r' || c.toNat = 11 || c.toNat = 12

/-- `str.strip()`: drop leading and trailing whitespace. -/
def stripChars (s : List Char) : List Char :=
  ((s.dropWhile isWs).reverse.dropWhile isWs).reverse

/-- `parts[0]` of `command.split(None, 1)` on an already stripped
`command`: the characters up to the first whitespace. -/
def cmdToken (command : List Char) : List Char :=
  command.takeWhile (fun c => !(isWs c))

/-- `parts[1].strip() if len(parts) > 1 else None` of
`command.split(None, 1)`, with the absent case collapsing to `[]`
(Python tests `arg` for truthiness, and `None` and `""` coincide
there): the characters after the first whitespace run, stripped. -/
def cmdArg (command : List Char) : List Char :=
  stripChars ((command.dropWhile (fun c => !(isWs c))).dropWhile isWs)

/-- Routing outcome of `_handle_command`, one constructor per branch. -/
inductive Routed
  /-- empty line: `return True` with no action (lines 374-375) -/
  | noop
  /-- `chat.announce()` (line 383) -/
  | doAnnounce
  /-- `chat.connect(arg)` (line 385) -/
  | doConnect (arg : List Char)
  /-- print own address (line 387) -/
  | showMe
  /-- print exiting, `return False` (lines 389-390) -/
  | doQuit
  /-- "[!] Invalid command or syntax: ..." (line 392) -/
  | invalid
  /-- `chat.send_text(command)` (line 395) -/
  | sendPlain (text : List Char)
  /-- "[!] Link is not active. Use :connect <hash>." (line 397) -/
  | linkNotActive
deriving DecidableEq

/-- `_handle_command` (lines 370-399) as a pure router.  `linkActive`
is `chat.link and chat.link.status == RNS.Link.ACTIVE`. -/
def routeCommand (linkActive : Bool) (line : List Char) : Routed :=
  let command := stripChars line
  if command = [] then Routed.noop
  else if command.head? = some ':' then
    let cmd := cmdToken command
    let arg := cmdArg command
    if cmd = (":announce").toList then Routed.doAnnounce
    else if cmd = (":connect").toList ∧ arg ≠ [] then Routed.doConnect arg
    else if cmd = (":me").toList then Routed.showMe
    else if cmd = (":quit").toList then Routed.doQuit
    else Routed.invalid
  else if linkActive then Routed.sendPlain command
  else Routed.linkNotActive

/-- `ln[0] | (ln[1] << 8)` recombines the two `u16le` bytes of any
`n < 65536`. -/
theorem lor_u16le (n : Nat) (h : n < 65536) :
    (n % 256) ||| ((n / 256 % 256) <<< 8) = n := by
  have hdiv : n / 256 % 256 = n / 256 := by
    have : n / 256 < 256 := Nat.div_lt_of_lt_mul (by omega)
    exact Nat.mod_eq_of_lt this
  have hmod : n % 256 < 2 ^ 8 := by
    have := Nat.mod_lt n (y := 256) (by omega)
    simpa using this
  have hor := Nat.mul_add_lt_is_or (a := n / 256) hmod
  have hsum : 2 ^ 8 * (n / 256) + n % 256 = n := by
    have := Nat.div_add_mod n 256
    omega
  calc (n % 256) ||| ((n / 256 % 256) <<< 8)
      = ((n / 256) <<< 8) ||| (n % 256) := by rw [hdiv, Nat.lor_comm]
    _ = (2 ^ 8 * (n / 256)) ||| (n % 256) := by
        rw [Nat.shiftLeft_eq, Nat.mul_comm]
    _ = 2 ^ 8 * (n / 256) + n % 256 := (hor).symm
    _ = n := hsum

/-- Round-trip of the frame codec for a recognized inbound tag and a
payload length accepted by the inbound parser, with arbitrary following
bytes preserved. -/
theorem decode_encode (tag p extra : List Nat)
    (ht : tag = tagEVNT ∨ tag = tagTXIN)
    (h1 : 1 ≤ p.length) (h2 : p.length ≤ FRAME_MAX) :
    decodeFrame (encodeFrame tag p ++ extra) = some (tag, p, extra) := by
  have h60 : FRAME_MAX = 60000 := rfl
  have hlen : p.length < 65536 := by omega
  have hL := lor_u16le p.length hlen
  have hc1 : ¬ (p.length = 0 ∨ p.length > FRAME_MAX) := by omega
  have hc2 : ¬ ((p ++ extra).length < p.length) := by
    simp only [List.length_append]; omega
  rcases ht with ht | ht <;> subst ht
  · have he : encodeFrame tagEVNT p ++ extra
        = 69 :: 86 :: 78 :: 84 :: (p.length % 256) ::
          (p.length / 256 % 256) :: (p ++ extra) := by
      simp [encodeFrame, u16le, tagEVNT]
    rw [he]
    simp only [decodeFrame, hL]
    rw [if_pos (show [69, 86, 78, 84] = tagEVNT ∨ [69, 86, 78, 84] = tagTXIN
      from Or.inl rfl), if_neg hc1, if_neg hc2]
    simp [List.take_left, List.drop_left, tagEVNT]
  · have he : encodeFrame tagTXIN p ++ extra
        = 84 :: 88 :: 73 :: 78 :: (p.length % 256) ::
          (p.length / 256 % 256) :: (p ++ extra) := by
      simp [encodeFrame, u16le, tagTXIN]
    rw [he]
    simp only [decodeFrame, hL]
    rw [if_pos (show [84, 88, 73, 78] = tagEVNT ∨ [84, 88, 73, 78] = tagTXIN
      from Or.inr rfl), if_neg hc1, if_neg hc2]
    simp [List.take_left, List.drop_left, tagTXIN]

/-- Draining an empty buffer yields no frames, whatever the fuel. -/
theorem rxDrain_nil (fuel : Nat) : rxDrain fuel [] = [] := by
  cases fuel <;> rfl

/-- Unfolding `rxDrain` on a non-empty buffer. -/
theorem rxDrain_cons (fuel a : Nat) (t : List Nat) :
    rxDrain (fuel + 1) (a :: t)
      = match rxStep (a :: t) with
        | (some p, rest) => p :: rxDrain fuel rest
        | (none, rest) => rxDrain fuel rest := rfl

/-- A rejecting `rxStep` ends the drain with nothing further emitted. -/
theorem rxDrain_step_none (fuel : Nat) (buf : List Nat)
    (h : rxStep buf = (none, [])) : rxDrain (fuel + 1) buf = [] := by
  cases buf with
  | nil => rfl
  | cons a t =>
    rw [rxDrain_cons, h]
    exact rxDrain_nil fuel

/-- An accepting `rxStep` emits its payload and drains the rest. -/
theorem rxDrain_step_some (fuel : Nat) (buf p rest : List Nat)
    (h : rxStep buf = (some p, rest)) :
    rxDrain (fuel + 1) buf = p :: rxDrain fuel rest := by
  cases buf with
  | nil => simp [rxStep, decodeFrame] at h
  | cons a t => rw [rxDrain_cons, h]

/-- Claim C1, counterexample: the round-trip fails at payload length 0
(the inbound parser rejects `L == 0`) and at the outbound tag `JCTL`
(the inbound parser only recognizes `EVNT` and `TXIN`). -/
theorem frame_roundtrip_cex :
    decodeFrame (encodeFrame tagEVNT []) = none ∧
    decodeFrame (encodeFrame tagJCTL [72]) = none := by
  constructor <;> decide

/-- Claim C1, amended: for the recognized inbound tags `EVNT` and
`TXIN` and payloads of length 1 to 60000, decoding the result of
encoding `(tag, payload)` yields exactly `(tag, payload)` (with any
following bytes left in the buffer). -/
theorem frame_roundtrip_inbound (tag p extra : List Nat)
    (ht : tag = tagEVNT ∨ tag = tagTXIN)
    (h1 : 1 ≤ p.length) (h2 : p.length ≤ FRAME_MAX) :
    decodeFrame (encodeFrame tag p ++ extra) = some (tag, p, extra) :=
  decode_encode tag p extra ht h1 h2

/-- Witness for `frame_roundtrip_inbound` at `TXIN` / payload
`[104, 105]`. -/
theorem frame_roundtrip_inbound_witness :
    (tagTXIN = tagEVNT ∨ tagTXIN = tagTXIN) ∧
    1 ≤ ([104, 105] : List Nat).length ∧
    ([104, 105] : List Nat).length ≤ FRAME_MAX ∧
    decodeFrame (encodeFrame tagTXIN [104, 105] ++ []) =
      some (tagTXIN, [104, 105], []) :=
  ⟨Or.inr rfl, by decide, by decide,
    frame_roundtrip_inbound tagTXIN [104, 105] [] (Or.inr rfl)
      (by decide) (by decide)⟩

/-- Claim C2: a buffered byte sequence that does not begin with a valid
frame is discarded in one iteration of the inbound loop with no frame
emitted (unknown tag and out-of-range length reset the input buffer, a
short read times out, all of which empty the buffer), and a valid frame
arriving afterwards is decoded to exactly that one frame. -/
theorem rx_resync (g tag p : List Nat)
    (hg : decodeFrame g = none)
    (ht : tag = tagEVNT ∨ tag = tagTXIN)
    (h1 : 1 ≤ p.length) (h2 : p.length ≤ FRAME_MAX) :
    rxStep g = (none, []) ∧
    rxDrain (g.length + 1) g = [] ∧
    rxDrain ((encodeFrame tag p).length + 1) (encodeFrame tag p) = [p] := by
  have hstep : rxStep g = (none, []) := by simp [rxStep, hg]
  have hdec : decodeFrame (encodeFrame tag p) = some (tag, p, []) := by
    have h := decode_encode tag p [] ht h1 h2
    rwa [List.append_nil] at h
  have hstepE : rxStep (encodeFrame tag p) = (some p, []) := by
    simp [rxStep, hdec]
  exact ⟨hstep, rxDrain_step_none g.length g hstep,
    by rw [rxDrain_step_some (encodeFrame tag p).length _ p [] hstepE,
      rxDrain_nil]⟩

/-- Witness for `rx_resync`: garbage `[0,1,2,3,4]` then a `TXIN` frame
with payload `[104, 105]`. -/
theorem rx_resync_witness :
    decodeFrame [0, 1, 2, 3, 4] = none ∧
    (tagTXIN = tagEVNT ∨ tagTXIN = tagTXIN) ∧
    1 ≤ ([104, 105] : List Nat).length ∧
    ([104, 105] : List Nat).length ≤ FRAME_MAX ∧
    (rxStep [0, 1, 2, 3, 4] = (none, []) ∧
      rxDrain (([0, 1, 2, 3, 4] : List Nat).length + 1) [0, 1, 2, 3, 4] = [] ∧
      rxDrain ((encodeFrame tagTXIN [104, 105]).length + 1)
        (encodeFrame tagTXIN [104, 105]) = [[104, 105]]) :=
  ⟨by decide, Or.inr rfl, by decide, by decide,
    rx_resync [0, 1, 2, 3, 4] tagTXIN [104, 105] (by decide) (Or.inr rfl)
      (by decide) (by decide)⟩

/-- Claim C3, counterexample: with an Active outgoing Link `id 1`
current, an inbound link-established event for a different Link `id 2`
replaces the Active Link — the handler assigns unconditionally. -/
theorem incoming_link_regress_cex :
    (onIncomingLinkEstablished
        ⟨some ⟨1, LinkStatus.active⟩, some [7]⟩ ⟨2, LinkStatus.active⟩).1.link
      = some ⟨2, LinkStatus.active⟩ ∧
    (some ⟨2, LinkStatus.active⟩ : Option Link) ≠ some ⟨1, LinkStatus.active⟩ := by
  constructor <;> decide

/-- Claim C3, amended: an inbound link-established event always adopts
the event Link as the session current Link, whatever the previous
current Link was — including replacing an already-Active one. -/
theorem incoming_link_always_adopted (st : NodeState) (l : Link) :
    (onIncomingLinkEstablished st l).1.link = some l := rfl

/-- Claim C4, counterexample: with the superseding Link `id 2` current,
a late close event for the superseded Link `id 1` clears the current
Link reference — the handler does not compare the event Link with the
current one. -/
theorem link_closed_stale_cex :
    (onLinkClosed ⟨some ⟨2, LinkStatus.active⟩, some [7]⟩
        ⟨1, LinkStatus.closed⟩).1.link = none ∧
    (none : Option Link) ≠ some ⟨2, LinkStatus.active⟩ := by
  constructor <;> decide

/-- Claim C4, amended: any link-closed event clears the current Link
reference unconditionally, even when the event Link is not the current
Link. -/
theorem link_closed_always_clears (st : NodeState) (l : Link) :
    (onLinkClosed st l).1.link = none := rfl

/-- Claim C5, counterexample: encoding a 60001-byte payload does not
fail — the payload is silently truncated to 60000 bytes and framed. -/
theorem tx_oversize_truncates_cex :
    txFrame tagTXTP (List.replicate 60001 97)
      = tagTXTP ++ u16le 60000 ++ List.replicate 60000 97 := by
  have ht : (List.replicate 60001 (97 : Nat)).take FRAME_MAX
      = List.replicate 60000 (97 : Nat) := by
    rw [List.take_replicate]
    norm_num [FRAME_MAX]
  have hhdr : tagTXTP ≠ tagJCTL := by decide
  simp only [txFrame, if_neg hhdr, ht, List.length_replicate]

/-- Claim C5, amended: the outbound encoder never fails; it truncates
the payload to the first 60000 bytes (the error taxonomy entry
describing oversized outbound text as truncated and not fatal is what
the code does) and frames
`header ++ u16le(len(truncated)) ++ truncated`, so the length field is
`min (payload length) 60000` and the framed payload never exceeds
60000 bytes. -/
theorem tx_frame_truncates (frameType msg : List Nat) :
    txFrame frameType msg
      = (if frameType = tagJCTL then tagJCTL else tagTXTP)
        ++ u16le (min msg.length FRAME_MAX) ++ msg.take FRAME_MAX ∧
    (msg.take FRAME_MAX).length ≤ FRAME_MAX := by
  constructor
  · simp [txFrame, List.length_take, Nat.min_comm]
  · simp [List.length_take]

/-- `_read_exact` invariant: with the stop flag never set and the
serial read contract (`ser.read(k)` returns at most `k` bytes), a
non-timeout return carries exactly `n` bytes. -/
theorem readExactAux_no_stop_length (reads : Nat → Nat → List Nat)
    (stop timedOut : Nat → Bool) (n : Nat)
    (hb : ∀ i k, (reads i k).length ≤ k) (hs : ∀ i, stop i = false) :
    ∀ fuel i buf r, buf.length ≤ n →
      readExactAux reads stop timedOut n fuel i buf = some (some r) →
      r.length = n := by
  intro fuel
  induction fuel with
  | zero => intro i buf r _ h; simp [readExactAux] at h
  | succ fuel ih =>
    intro i buf r hle h
    rw [readExactAux] at h
    by_cases hlt : buf.length < n
    · rw [if_pos ⟨hlt, hs i⟩] at h
      by_cases hb0 : reads i (n - buf.length) ≠ []
      · rw [if_pos hb0] at h
        refine ih (i + 1) (buf ++ reads i (n - buf.length)) r ?_ h
        have := hb i (n - buf.length)
        simp only [List.length_append]
        omega
      · rw [if_neg hb0] at h
        by_cases hto : timedOut i = true
        · rw [if_pos hto] at h
          exact absurd h (by simp)
        · rw [if_neg hto] at h
          exact ih (i + 1) buf r hle h
    · rw [if_neg (by simp [hlt])] at h
      have hr : buf = r := by
        simpa only [Option.some.injEq] using h
      subst hr
      omega

/-- Claim C6, counterexample: if the stop flag `self._stop` is raised
while a read is accumulating, the loop exits and `bytes(buf)` returns
the partial accumulation — here 2 of 4 requested bytes. -/
theorem read_exact_stop_partial_cex :
    readExactAux (fun i _ => if i = 0 then [1, 2] else [])
        (fun i => decide (1 ≤ i)) (fun _ => false) 4 3 0 []
      = some (some [1, 2]) ∧
    ([1, 2] : List Nat).length ≠ 4 := by
  constructor <;> decide

/-- Claim C6, amended: as long as the stop flag stays clear and the
serial port honours its read contract, `_read_exact(n)` returns either
exactly `n` bytes or the distinguished timeout failure, never a partial
accumulation; only a shutdown (stop flag raised mid-read) can yield
fewer than `n` bytes. -/
theorem read_exact_no_partial (reads : Nat → Nat → List Nat)
    (stop timedOut : Nat → Bool) (n fuel : Nat) (r : List Nat)
    (hb : ∀ i k, (reads i k).length ≤ k) (hs : ∀ i, stop i = false)
    (h : readExactAux reads stop timedOut n fuel 0 [] = some (some r)) :
    r.length = n :=
  readExactAux_no_stop_length reads stop timedOut n hb hs fuel 0 [] r
    (by simp) h

/-- Witness for `read_exact_no_partial`: a port that always returns the
requested bytes completes a 2-byte read exactly. -/
theorem read_exact_no_partial_witness :
    readExactAux (fun _ k => List.replicate k 7) (fun _ => false)
        (fun _ => false) 2 3 0 [] = some (some [7, 7]) ∧
    ([7, 7] : List Nat).length = 2 :=
  ⟨by decide,
    read_exact_no_partial (fun _ k => List.replicate k 7) (fun _ => false)
      (fun _ => false) 2 3 [7, 7] (fun i k => by simp) (fun i => rfl)
      (by decide)⟩

/-- Claim C7: with the current Link Active, `send_text` makes exactly
one mesh send attempt carrying the encoded bytes; on a send failure the
Link reference is dropped (peer retained, i.e. the Closed configuration)
and the failure is reported; on success the state is unchanged and the
message echoed. -/
theorem send_while_active (st : NodeState) (l : Link) (data : List Nat)
    (f : Bool) (hl : st.link = some l) (hs : l.status = LinkStatus.active) :
    (sendText st data f).2.1 = [data] ∧
    (f = true →
      (sendText st data f).1.link = none ∧
      (sendText st data f).1.peerHash = st.peerHash ∧
      (sendText st data f).2.2 = [Msg.sendFailed]) ∧
    (f = false →
      (sendText st data f).1 = st ∧
      (sendText st data f).2.2 = [Msg.echoSent data]) := by
  cases f <;> simp [sendText, hl, hs]

/-- Witness for `send_while_active`: an Active link `id 1`, payload
`[104]`, failing send. -/
theorem send_while_active_witness :
    (sendText ⟨some ⟨1, LinkStatus.active⟩, some [5]⟩ [104] true).2.1
      = [[104]] ∧
    (sendText ⟨some ⟨1, LinkStatus.active⟩, some [5]⟩ [104] true).1.link
      = none ∧
    (sendText ⟨some ⟨1, LinkStatus.active⟩, some [5]⟩ [104] true).1.peerHash
      = some [5] ∧
    (sendText ⟨some ⟨1, LinkStatus.active⟩, some [5]⟩ [104] true).2.2
      = [Msg.sendFailed] := by
  have h := send_while_active ⟨some ⟨1, LinkStatus.active⟩, some [5]⟩
    ⟨1, LinkStatus.active⟩ [104] true rfl rfl
  exact ⟨h.1, (h.2.1 rfl).1, (h.2.1 rfl).2.1, (h.2.1 rfl).2.2⟩

/-- `_wait_for_path_and_identity` returns `None` once the timeout
elapses, when no poll ever sees both a path and a recalled identity. -/
theorem waitAux_timeout (hasPath : Nat → Bool) (recallId : Nat → Option Nat)
    (timedOut : Nat → Bool)
    (hnever : ∀ k, hasPath k = false ∨ recallId k = none) :
    ∀ fuel i, (∃ j, i ≤ j ∧ j < i + fuel ∧ timedOut j = true) →
      waitForPathAndIdentityAux hasPath recallId timedOut fuel i
        = some none := by
  intro fuel
  induction fuel with
  | zero => intro i ⟨j, hj⟩; omega
  | succ fuel ih =>
    intro i ⟨j, hj1, hj2, hj3⟩
    rw [waitForPathAndIdentityAux, if_pos (hnever i)]
    by_cases hti : timedOut i = true
    · rw [if_pos hti]
    · rw [if_neg hti]
      refine ih (i + 1) ⟨j, ?_, by omega, hj3⟩
      rcases Nat.eq_or_lt_of_le hj1 with h | h
      · exact absurd (h ▸ hj3) hti
      · omega

/-- Claim C8, counterexample: `connect` with valid hex `[171]` against
a never-resolving mesh stack reports the unreachable-peer error and
creates no Link, but leaves `self.peer_hash` set to the parsed address
— the session does not return to the no-peer Idle configuration. -/
theorem connect_timeout_keeps_peer_cex :
    connect ⟨none, none⟩ (some [171]) (fun _ => false) (fun _ => none)
        (fun i => decide (100 ≤ i)) 101 ⟨9, LinkStatus.pending⟩
      = some (⟨none, some [171]⟩, [Msg.peerUnreachable]) ∧
    (some [171] : Option (List Nat)) ≠ none := by
  constructor <;> decide

/-- Claim C8, amended: `connect` with a syntactically valid hex
address, against a mesh stack that never yields both a route and a
recalled identity, reports PeerUnreachable once the resolution timeout
elapses; no Link is created (the `link` field is untouched), but the
parsed peer hash remains stored in `peer_hash` — it was assigned before
resolution and is not cleared on failure. -/
theorem connect_unreachable (st : NodeState) (ph : List Nat)
    (hasPath : Nat → Bool) (recallId : Nat → Option Nat)
    (timedOut : Nat → Bool) (fuel : Nat) (newLink : Link)
    (hnever : ∀ k, hasPath k = false ∨ recallId k = none)
    (htime : ∃ j, j < fuel ∧ timedOut j = true) :
    connect st (some ph) hasPath recallId timedOut fuel newLink
      = some ({ st with peerHash := some ph }, [Msg.peerUnreachable]) := by
  obtain ⟨j, hj1, hj2⟩ := htime
  have hw := waitAux_timeout hasPath recallId timedOut hnever fuel 0
    ⟨j, by omega, by omega, hj2⟩
  simp [connect, hw]

/-- Witness for `connect_unreachable` at the concrete never-resolving
stack used in the counterexample. -/
theorem connect_unreachable_witness :
    connect ⟨none, some [9]⟩ (some [171]) (fun _ => false) (fun _ => none)
        (fun i => decide (100 ≤ i)) 101 ⟨9, LinkStatus.pending⟩
      = some (⟨none, some [171]⟩, [Msg.peerUnreachable]) :=
  connect_unreachable ⟨none, some [9]⟩ [171] (fun _ => false)
    (fun _ => none) (fun i => decide (100 ≤ i)) 101 ⟨9, LinkStatus.pending⟩
    (fun _ => Or.inl rfl) ⟨100, by omega, by decide⟩

/-- Drop-oldest invariant: enqueuing a list of items into a queue that
holds at most `QUEUE_CAP` items keeps exactly the newest `QUEUE_CAP`
of the combined sequence, in order. -/
theorem foldl_putDropOldest {α : Type} :
    ∀ (l q : List α), q.length ≤ QUEUE_CAP →
      List.foldl putDropOldest q l
        = (q ++ l).drop (q.length + l.length - QUEUE_CAP) := by
  have hQ : QUEUE_CAP = 100 := rfl
  intro l
  induction l with
  | nil =>
    intro q hq
    simp only [List.foldl_nil, List.append_nil, List.length_nil]
    rw [show q.length + 0 - QUEUE_CAP = 0 by omega, List.drop_zero]
  | cons x t ih =>
    intro q hq
    rw [List.foldl_cons]
    by_cases hlt : q.length < QUEUE_CAP
    · have hput : putDropOldest q x = q ++ [x] := by
        simp [putDropOldest, hlt]
      have hlen1 : (q ++ [x]).length = q.length + 1 := by simp
      rw [hput, ih (q ++ [x]) (by rw [hlen1]; omega), hlen1]
      rw [List.append_assoc, List.singleton_append]
      congr 1
      simp only [List.length_cons]
      omega
    · have hq100 : q.length = QUEUE_CAP := by omega
      have hqpos : q ≠ [] := by
        intro hnil
        rw [hnil] at hq100
        simp at hq100
        omega
      have hput : putDropOldest q x = q.drop 1 ++ [x] := by
        simp [putDropOldest, hlt]
      have hlen1 : (q.drop 1 ++ [x]).length = QUEUE_CAP := by
        simp only [List.length_append, List.length_drop, List.length_cons,
          List.length_nil]
        omega
      rw [hput, ih (q.drop 1 ++ [x]) (by rw [hlen1]), hlen1]
      have hd1 : (q ++ x :: t).drop 1 = q.drop 1 ++ x :: t :=
        List.drop_append_of_le_length (by omega)
      have hidx : q.length + (x :: t).length - QUEUE_CAP = 1 + t.length := by
        simp only [List.length_cons]
        omega
      rw [hidx, ← List.drop_drop, hd1]
      rw [List.append_assoc, List.singleton_append]
      congr 1
      omega

/-- Claim C9: with the capacity-100 queue and drop-oldest overflow,
enqueuing 101 items from empty delivers exactly the last 100, in their
original relative order. -/
theorem outbound_queue_drop_oldest {α : Type} (items : List α)
    (h : items.length = 101) :
    enqueueAll items = items.drop 1 := by
  have hf := foldl_putDropOldest items [] (by simp [QUEUE_CAP])
  simp only [List.nil_append, List.length_nil, Nat.zero_add, h] at hf
  simpa [enqueueAll, QUEUE_CAP] using hf

/-- Witness for `outbound_queue_drop_oldest` on the items `0..100`. -/
theorem outbound_queue_drop_oldest_witness :
    (List.range 101).length = 101 ∧
    enqueueAll (List.range 101) = (List.range 101).drop 1 :=
  ⟨by simp, outbound_queue_drop_oldest (List.range 101) (by simp)⟩

/-- Claim C10, counterexample: `:rssi` is not among the verbs the
router recognizes — it falls through to the invalid-command report
instead of printing link quality. -/
theorem rssi_invalid_cex :
    routeCommand false ((":rssi").toList) = Routed.invalid := by decide

/-- Claim C10, amended: the recognized command set is `:me`,
`:announce`, `:connect <arg>` and `:quit`; `:rssi` is not implemented
and, like every other `:`-prefixed token outside that set, yields the
invalid-command report (not silence). -/
theorem command_router (b : Bool) (line : List Char)
    (h1 : (stripChars line).head? = some ':')
    (h2 : cmdToken (stripChars line) ≠ (":announce").toList)
    (h3 : cmdToken (stripChars line) ≠ (":me").toList)
    (h4 : cmdToken (stripChars line) ≠ (":quit").toList)
    (h5 : ¬(cmdToken (stripChars line) = (":connect").toList ∧
        cmdArg (stripChars line) ≠ [])) :
    routeCommand b ((":me").toList) = Routed.showMe ∧
    routeCommand b ((":announce").toList) = Routed.doAnnounce ∧
    routeCommand b ((":connect abc123").toList)
      = Routed.doConnect (("abc123").toList) ∧
    routeCommand b ((":quit").toList) = Routed.doQuit ∧
    routeCommand b ((":rssi").toList) = Routed.invalid ∧
    routeCommand b line = Routed.invalid := by
  have hne : stripChars line ≠ [] := by
    intro hnil
    rw [hnil] at h1
    simp at h1
  refine ⟨by cases b <;> decide, by cases b <;> decide, by cases b <;> decide,
    by cases b <;> decide, by cases b <;> decide, ?_⟩
  simp only [routeCommand]
  rw [if_neg hne, if_pos h1, if_neg h2, if_neg h5, if_neg h3, if_neg h4]

/-- Witness for `command_router` at the unrecognized verb `:bogus`. -/
theorem command_router_witness :
    (stripChars ((":bogus").toList)).head? = some ':' ∧
    cmdToken (stripChars ((":bogus").toList)) ≠ (":announce").toList ∧
    cmdToken (stripChars ((":bogus").toList)) ≠ (":me").toList ∧
    cmdToken (stripChars ((":bogus").toList)) ≠ (":quit").toList ∧
    routeCommand false ((":bogus").toList) = Routed.invalid :=
  ⟨by decide, by decide, by decide, by decide,
    (command_router false ((":bogus").toList) (by decide) (by decide)
      (by decide) (by decide) (by decide)).2.2.2.2.2⟩

end LoraChat
